import Mathlib

/-!
Shallow embedding of `programs/payguard/src/lib.rs` (Anchor/Solana escrow
program).  Machine integers (`u64`, `u128`, `u8`) are modelled as `Nat` with
explicit bounds where overflow matters; on-chain builds run with
overflow-checks enabled, so a checked add/sub that overflows is modelled as
the outcome `StepResult.panic` (the transaction aborts with no state change),
while an `as u64` cast truncates (`% 2 ^ 64`).  Anchor account constraints
(`has_one`, `Signer`, `constraint = ...`) run before the instruction body and
are modelled as an authorization check returning `Unauthorized`.  SPL token
transfers are recorded as `Transfer` requests; the core never inspects
balances.
-/

namespace PayGuard

/-- Number of values of the Rust `u64` type. -/
def U64MOD : Nat := 2 ^ 64

/-- Number of values of the Rust `u128` type. -/
def U128MOD : Nat := 2 ^ 128

/-- Solana public keys are opaque identities; only equality is used. -/
abbrev Pubkey := Nat

/-- `[u8; 32]` opaque commitments (hashes); never interpreted by the core. -/
abbrev Hash := Nat

inductive ContractStatus
| Active
| Completed
| Cancelled
| Disputed
deriving DecidableEq, Repr

inductive MilestoneStatus
| Pending
| Submitted
| Approved
| Rejected
| Disputed
| Resolved
deriving DecidableEq, Repr

structure Milestone where
  amount : Nat
  status : MilestoneStatus
  description : String
  proof_hash : Option Hash
  dispute_reason : Option Hash
  arbitration_proof : Option Hash
  submitted_at : Option Int
deriving DecidableEq, Repr

structure Contract where
  id : Nat
  client : Pubkey
  freelancer : Pubkey
  token_mint : Nat
  total_amount : Nat
  released_amount : Nat
  milestones : List Milestone
  description_hash : Hash
  status : ContractStatus
  created_at : Int
  bump : Nat
deriving DecidableEq, Repr

/-- The token accounts appearing in the program's transfer CPIs. -/
inductive Acct
| clientToken
| escrowVault
| freelancerToken
deriving DecidableEq, Repr

/-- One `token::transfer` request issued by the core. -/
structure Transfer where
  source : Acct
  dest : Acct
  amount : Nat
deriving DecidableEq, Repr

inductive PayGuardError
| InvalidMilestones
| AmountMismatch
| ContractNotActive
| InvalidMilestoneIndex
| MilestoneNotPending
| MilestoneNotSubmitted
| MilestoneNotDisputed
| Unauthorized
deriving DecidableEq, Repr

inductive DisputeDecision
| FavorFreelancer
| FavorClient
| Split (pct : Nat)
deriving DecidableEq, Repr

/-- Outcome of one instruction: success with the new contract record and the
list of transfer requests, a named error (`require!` failure or Anchor
constraint failure), or a Rust panic (out-of-bounds index / checked
arithmetic overflow), which aborts the transaction with no state change. -/
inductive StepResult
| ok (c : Contract) (transfers : List Transfer)
| err (e : PayGuardError)
| panic
deriving DecidableEq, Repr

/-- `milestones.iter().map(|m| m.amount).sum()` (value of the u64 sum). -/
def sumAmounts (ms : List Milestone) : Nat :=
  (ms.map (fun m => m.amount)).sum

/-- `create_contract` (lib.rs lines 11-38): validates the milestone count and
the amount sum, then stores the record.  The caller-supplied milestone list
is stored verbatim (`contract.milestones = milestones`) — statuses are NOT
reset.  The u64 sum panics on overflow (overflow-checks build). -/
def create_contract (contract_id : Nat) (client freelancer token_mint : Pubkey)
    (total_amount : Nat) (milestones : List Milestone) (description_hash : Hash)
    (now : Int) (bump : Nat) : StepResult :=
  if milestones.length > 0 ∧ milestones.length ≤ 10 then
    if sumAmounts milestones < U64MOD then
      if sumAmounts milestones = total_amount then
        .ok { id := contract_id, client := client, freelancer := freelancer,
              token_mint := token_mint, total_amount := total_amount,
              released_amount := 0, milestones := milestones,
              description_hash := description_hash, status := .Active,
              created_at := now, bump := bump } []
      else .err .AmountMismatch
    else .panic
  else .err .InvalidMilestones

/-- `fund_escrow` (lib.rs lines 41-57).  Accounts: `has_one = client`,
`client: Signer` — the caller must be the contract's client. -/
def fund_escrow (c : Contract) (caller : Pubkey) (amount : Nat) : StepResult :=
  if caller ≠ c.client then .err .Unauthorized
  else if c.status ≠ .Active then .err .ContractNotActive
  else if amount ≠ c.total_amount then .err .AmountMismatch
  else .ok c [{ source := .clientToken, dest := .escrowVault, amount := amount }]

/-- `submit_milestone` (lib.rs lines 60-77).  Accounts: `has_one = freelancer`,
`freelancer: Signer`.  The index is bounds-checked (`InvalidMilestoneIndex`). -/
def submit_milestone (c : Contract) (caller : Pubkey) (milestone_index : Nat)
    (proof_hash : Hash) (now : Int) : StepResult :=
  if caller ≠ c.freelancer then .err .Unauthorized
  else if c.status ≠ .Active then .err .ContractNotActive
  else if milestone_index ≥ c.milestones.length then .err .InvalidMilestoneIndex
  else
    match c.milestones.get? milestone_index with
    | none => .panic
    | some m =>
      if m.status ≠ .Pending then .err .MilestoneNotPending
      else .ok { c with milestones := (c.milestones.set milestone_index
                  { m with status := .Submitted, proof_hash := some proof_hash,
                           submitted_at := some now }) } []

/-- `approve_milestone` (lib.rs lines 80-115).  Accounts: `has_one = client`,
`client: Signer`.  Index bounds-checked; milestone must be Submitted; then
`released_amount += amount` (checked add), one transfer escrow → freelancer,
and status becomes Completed when `released_amount == total_amount`. -/
def approve_milestone (c : Contract) (caller : Pubkey) (milestone_index : Nat) :
    StepResult :=
  if caller ≠ c.client then .err .Unauthorized
  else if c.status ≠ .Active then .err .ContractNotActive
  else if milestone_index ≥ c.milestones.length then .err .InvalidMilestoneIndex
  else
    match c.milestones.get? milestone_index with
    | none => .panic
    | some m =>
      if m.status ≠ .Submitted then .err .MilestoneNotSubmitted
      else if c.released_amount + m.amount < U64MOD then
        .ok { c with
              milestones := c.milestones.set milestone_index
                { m with status := .Approved },
              released_amount := c.released_amount + m.amount,
              status := if c.released_amount + m.amount = c.total_amount
                        then .Completed else c.status }
           [{ source := .escrowVault, dest := .freelancerToken, amount := m.amount }]
      else .panic

/-- `raise_dispute` (lib.rs lines 118-133).  Accounts: `constraint =
contract.client == authority || contract.freelancer == authority`.  NOTE:
the body indexes `contract.milestones[milestone_index]` with NO bounds
check — an out-of-range index panics. -/
def raise_dispute (c : Contract) (caller : Pubkey) (milestone_index : Nat)
    (reason_hash : Hash) : StepResult :=
  if ¬ (c.client = caller ∨ c.freelancer = caller) then .err .Unauthorized
  else if c.status ≠ .Active then .err .ContractNotActive
  else
    match c.milestones.get? milestone_index with
    | none => .panic
    | some m =>
      if m.status ≠ .Submitted then .err .MilestoneNotSubmitted
      else .ok { c with milestones := (c.milestones.set milestone_index
                  { m with status := .Disputed,
                           dispute_reason := some reason_hash }) } []

/-- Split arithmetic of `resolve_dispute` (lib.rs lines 178-179):
`freelancer_amount = (amount as u128 * pct as u128 / 100) as u64` (the cast
truncates mod `2 ^ 64`; the u128 product never overflows since
`amount < 2 ^ 64` and `pct < 2 ^ 8`), and
`client_amount = amount - freelancer_amount` (checked u64 subtraction —
the panic case is handled at the call site). -/
def splitAmounts (amount pct : Nat) : Nat × Nat :=
  let freelancer_amount := amount * pct / 100 % U64MOD
  (freelancer_amount, amount - freelancer_amount)

/-- `resolve_dispute` (lib.rs lines 136-226).  Accounts: the arbitrator is
any signer (no binding to the contract is checked).  NOTE: no
`ContractNotActive` check, and the index is unchecked (panics when out of
range).  Requires the milestone Disputed, records the arbitration proof,
branches on the decision, and sets Completed when
`released_amount == total_amount` afterwards. -/
def resolve_dispute (c : Contract) (arbitrator : Pubkey) (milestone_index : Nat)
    (decision : DisputeDecision) (arbitration_proof : Hash) : StepResult :=
  match c.milestones.get? milestone_index with
  | none => .panic
  | some m =>
    if m.status ≠ .Disputed then .err .MilestoneNotDisputed
    else
      match decision with
      | .FavorFreelancer =>
        if c.released_amount + m.amount < U64MOD then
          .ok { c with
                milestones := c.milestones.set milestone_index
                  { m with arbitration_proof := some arbitration_proof,
                           status := .Approved },
                released_amount := c.released_amount + m.amount,
                status := if c.released_amount + m.amount = c.total_amount
                          then .Completed else c.status }
             [{ source := .escrowVault, dest := .freelancerToken,
                amount := m.amount }]
        else .panic
      | .FavorClient =>
        .ok { c with
              milestones := c.milestones.set milestone_index
                { m with arbitration_proof := some arbitration_proof,
                         status := .Rejected },
              status := if c.released_amount = c.total_amount
                        then .Completed else c.status } []
      | .Split pct =>
        if (splitAmounts m.amount pct).1 ≤ m.amount then
          if c.released_amount + (splitAmounts m.amount pct).1 < U64MOD then
            .ok { c with
                  milestones := c.milestones.set milestone_index
                    { m with arbitration_proof := some arbitration_proof,
                             status := .Resolved },
                  released_amount :=
                    c.released_amount + (splitAmounts m.amount pct).1,
                  status := if c.released_amount + (splitAmounts m.amount pct).1
                               = c.total_amount
                            then .Completed else c.status }
               [{ source := .escrowVault, dest := .freelancerToken,
                  amount := (splitAmounts m.amount pct).1 },
                { source := .escrowVault, dest := .clientToken,
                  amount := (splitAmounts m.amount pct).2 }]
          else .panic
        else .panic

/-- `cancel_contract` (lib.rs lines 229-259).  Accounts: `has_one = client`,
`client: Signer`.  Computes `refund = total_amount - released_amount`
(checked u64 subtraction), transfers it escrow → client when positive, and
sets the status to Cancelled. -/
def cancel_contract (c : Contract) (caller : Pubkey) : StepResult :=
  if caller ≠ c.client then .err .Unauthorized
  else if c.status ≠ .Active then .err .ContractNotActive
  else if c.released_amount ≤ c.total_amount then
    .ok { c with status := .Cancelled }
      (if c.total_amount - c.released_amount > 0 then
        [{ source := .escrowVault, dest := .clientToken,
           amount := c.total_amount - c.released_amount }]
       else [])
  else .panic

/-- One mutating call on an existing contract record. -/
inductive Op
| fund (caller : Pubkey) (amount : Nat)
| submit (caller : Pubkey) (idx : Nat) (proof : Hash) (now : Int)
| approve (caller : Pubkey) (idx : Nat)
| dispute (caller : Pubkey) (idx : Nat) (reason : Hash)
| resolve (caller : Pubkey) (idx : Nat) (decision : DisputeDecision) (proof : Hash)
| cancel (caller : Pubkey)
deriving DecidableEq, Repr

def applyOp (c : Contract) : Op → StepResult
| .fund caller amount => fund_escrow c caller amount
| .submit caller idx proof now => submit_milestone c caller idx proof now
| .approve caller idx => approve_milestone c caller idx
| .dispute caller idx reason => raise_dispute c caller idx reason
| .resolve caller idx d proof => resolve_dispute c caller idx d proof
| .cancel caller => cancel_contract c caller

/-- Contract records reachable from `create_contract` by successful calls
(an erroring or panicking call leaves the record unchanged). -/
inductive Reachable : Contract → Prop
| created (cid cl fr mint total : Nat) (ms : List Milestone) (dh : Hash)
    (now : Int) (bump : Nat) (c : Contract) (txs : List Transfer) :
    create_contract cid cl fr mint total ms dh now bump = .ok c txs →
    Reachable c
| step (c : Contract) (op : Op) (c' : Contract) (txs : List Transfer) :
    Reachable c → applyOp c op = .ok c' txs → Reachable c'

/-- Runs a list of operations, threading the state and collecting every
transfer request; `none` when any call does not succeed. -/
def runOps (c : Contract) : List Op → Option (Contract × List Transfer)
| [] => some (c, [])
| op :: rest =>
  match applyOp c op with
  | .ok c' txs =>
    match runOps c' rest with
    | some (cf, more) => some (cf, txs ++ more)
    | none => none
  | _ => none

/-- Total amount of the escrow-outbound transfer requests in a list. -/
def escrowOutbound (txs : List Transfer) : Nat :=
  ((txs.filter (fun t => t.source = .escrowVault)).map (fun t => t.amount)).sum

/-- A milestone with the given amount and all other fields defaulted, as a
well-behaved caller would supply to `create_contract`. -/
def mkMilestone (amount : Nat) : Milestone :=
  { amount := amount, status := .Pending, description := "",
    proof_hash := none, dispute_reason := none, arbitration_proof := none,
    submitted_at := none }


/-! ### Inversion lemmas: what a successful call tells us about its inputs
and its result.  One lemma per instruction, read off directly from the
definition's `if`/`match` tower. -/

theorem create_ok {cid cl fr mint total : Nat} {ms : List Milestone} {dh : Hash}
    {now : Int} {bump : Nat} {c : Contract} {txs : List Transfer}
    (h : create_contract cid cl fr mint total ms dh now bump = .ok c txs) :
    0 < ms.length ∧ ms.length ≤ 10 ∧ sumAmounts ms = total ∧
    sumAmounts ms < U64MOD ∧ txs = [] ∧
    c = { id := cid, client := cl, freelancer := fr, token_mint := mint,
          total_amount := total, released_amount := 0, milestones := ms,
          description_hash := dh, status := .Active, created_at := now,
          bump := bump } := by
  unfold create_contract at h
  split at h
  case isFalse => exact StepResult.noConfusion h
  rename_i hlen
  split at h
  case isFalse => exact StepResult.noConfusion h
  rename_i hsum
  split at h
  case isFalse => exact StepResult.noConfusion h
  rename_i heq
  injection h with h1 h2
  exact ⟨hlen.1, hlen.2, heq, hsum, h2.symm, h1.symm⟩

theorem fund_ok {c : Contract} {caller : Pubkey} {amount : Nat}
    {c' : Contract} {txs : List Transfer}
    (h : fund_escrow c caller amount = .ok c' txs) :
    caller = c.client ∧ c.status = .Active ∧ amount = c.total_amount ∧
    c' = c ∧
    txs = [{ source := .clientToken, dest := .escrowVault, amount := amount }] := by
  unfold fund_escrow at h
  split at h
  · exact StepResult.noConfusion h
  rename_i hcaller
  split at h
  · exact StepResult.noConfusion h
  rename_i hstatus
  split at h
  · exact StepResult.noConfusion h
  rename_i hamount
  injection h with h1 h2
  exact ⟨not_not.mp hcaller, not_not.mp hstatus, not_not.mp hamount,
         h1.symm, h2.symm⟩

theorem submit_ok {c : Contract} {caller : Pubkey} {idx : Nat} {proof : Hash}
    {now : Int} {c' : Contract} {txs : List Transfer}
    (h : submit_milestone c caller idx proof now = .ok c' txs) :
    ∃ m, c.milestones.get? idx = some m ∧ m.status = .Pending ∧
      caller = c.freelancer ∧ c.status = .Active ∧ idx < c.milestones.length ∧
      txs = [] ∧
      c' = { c with milestones := (c.milestones.set idx
              { m with status := .Submitted, proof_hash := some proof,
                       submitted_at := some now }) } := by
  unfold submit_milestone at h
  repeat' split at h
  any_goals exact StepResult.noConfusion h
  rename_i hcaller hstatus hidx x m hm hpending
  injection h with h1 h2
  exact ⟨m, hm, not_not.mp hpending, not_not.mp hcaller, not_not.mp hstatus,
         not_le.mp hidx, h2.symm, h1.symm⟩

theorem approve_ok {c : Contract} {caller : Pubkey} {idx : Nat}
    {c' : Contract} {txs : List Transfer}
    (h : approve_milestone c caller idx = .ok c' txs) :
    ∃ m, c.milestones.get? idx = some m ∧ m.status = .Submitted ∧
      caller = c.client ∧ c.status = .Active ∧ idx < c.milestones.length ∧
      c.released_amount + m.amount < U64MOD ∧
      txs = [{ source := .escrowVault, dest := .freelancerToken,
               amount := m.amount }] ∧
      c' = { c with
             milestones := (c.milestones.set idx { m with status := .Approved }),
             released_amount := c.released_amount + m.amount,
             status := if c.released_amount + m.amount = c.total_amount
                       then .Completed else c.status } := by
  unfold approve_milestone at h
  split at h
  · exact StepResult.noConfusion h
  rename_i hcaller
  split at h
  · exact StepResult.noConfusion h
  rename_i hstatus
  split at h
  · exact StepResult.noConfusion h
  rename_i hidx
  split at h
  · exact StepResult.noConfusion h
  rename_i x m hm
  split at h
  · exact StepResult.noConfusion h
  rename_i hsub
  split at h
  case isFalse => exact StepResult.noConfusion h
  rename_i hov
  injection h with h1 h2
  exact ⟨m, hm, not_not.mp hsub, not_not.mp hcaller, not_not.mp hstatus,
         not_le.mp hidx, hov, h2.symm, h1.symm⟩

theorem raise_ok {c : Contract} {caller : Pubkey} {idx : Nat} {reason : Hash}
    {c' : Contract} {txs : List Transfer}
    (h : raise_dispute c caller idx reason = .ok c' txs) :
    ∃ m, c.milestones.get? idx = some m ∧ m.status = .Submitted ∧
      (c.client = caller ∨ c.freelancer = caller) ∧ c.status = .Active ∧
      txs = [] ∧
      c' = { c with milestones := (c.milestones.set idx
              { m with status := .Disputed, dispute_reason := some reason }) } := by
  unfold raise_dispute at h
  split at h
  · exact StepResult.noConfusion h
  rename_i hcaller
  split at h
  · exact StepResult.noConfusion h
  rename_i hstatus
  split at h
  · exact StepResult.noConfusion h
  rename_i x m hm
  split at h
  · exact StepResult.noConfusion h
  rename_i hsub
  injection h with h1 h2
  exact ⟨m, hm, not_not.mp hsub, not_not.mp hcaller, not_not.mp hstatus,
         h2.symm, h1.symm⟩

theorem resolve_ok {c : Contract} {arb : Pubkey} {idx : Nat}
    {d : DisputeDecision} {pr : Hash} {c' : Contract} {txs : List Transfer}
    (h : resolve_dispute c arb idx d pr = .ok c' txs) :
    ∃ m, c.milestones.get? idx = some m ∧ m.status = .Disputed ∧
      ((d = .FavorFreelancer ∧ c.released_amount + m.amount < U64MOD ∧
        txs = [{ source := .escrowVault, dest := .freelancerToken,
                 amount := m.amount }] ∧
        c' = { c with
               milestones := (c.milestones.set idx
                 { m with arbitration_proof := some pr, status := .Approved }),
               released_amount := c.released_amount + m.amount,
               status := if c.released_amount + m.amount = c.total_amount
                         then .Completed else c.status }) ∨
       (d = .FavorClient ∧ txs = [] ∧
        c' = { c with
               milestones := (c.milestones.set idx
                 { m with arbitration_proof := some pr, status := .Rejected }),
               status := if c.released_amount = c.total_amount
                         then .Completed else c.status }) ∨
       (∃ pct, d = .Split pct ∧ (splitAmounts m.amount pct).1 ≤ m.amount ∧
        c.released_amount + (splitAmounts m.amount pct).1 < U64MOD ∧
        txs = [{ source := .escrowVault, dest := .freelancerToken,
                 amount := (splitAmounts m.amount pct).1 },
               { source := .escrowVault, dest := .clientToken,
                 amount := (splitAmounts m.amount pct).2 }] ∧
        c' = { c with
               milestones := (c.milestones.set idx
                 { m with arbitration_proof := some pr, status := .Resolved }),
               released_amount :=
                 c.released_amount + (splitAmounts m.amount pct).1,
               status := if c.released_amount + (splitAmounts m.amount pct).1
                            = c.total_amount
                         then .Completed else c.status })) := by
  unfold resolve_dispute at h
  split at h
  · exact StepResult.noConfusion h
  rename_i x m hm
  split at h
  · exact StepResult.noConfusion h
  rename_i hdisp
  split at h
  · split at h
    case isFalse => exact StepResult.noConfusion h
    rename_i hov
    injection h with h1 h2
    exact ⟨m, hm, not_not.mp hdisp, Or.inl ⟨rfl, hov, h2.symm, h1.symm⟩⟩
  · injection h with h1 h2
    exact ⟨m, hm, not_not.mp hdisp, Or.inr (Or.inl ⟨rfl, h2.symm, h1.symm⟩)⟩
  · rename_i pct
    split at h
    case isFalse => exact StepResult.noConfusion h
    rename_i hle
    split at h
    case isFalse => exact StepResult.noConfusion h
    rename_i hov
    injection h with h1 h2
    exact ⟨m, hm, not_not.mp hdisp,
           Or.inr (Or.inr ⟨pct, rfl, hle, hov, h2.symm, h1.symm⟩)⟩

theorem cancel_ok {c : Contract} {caller : Pubkey}
    {c' : Contract} {txs : List Transfer}
    (h : cancel_contract c caller = .ok c' txs) :
    caller = c.client ∧ c.status = .Active ∧
    c.released_amount ≤ c.total_amount ∧
    c' = { c with status := .Cancelled } ∧
    txs = (if c.total_amount - c.released_amount > 0 then
            [{ source := .escrowVault, dest := .clientToken,
               amount := c.total_amount - c.released_amount }]
           else []) := by
  unfold cancel_contract at h
  split at h
  · exact StepResult.noConfusion h
  rename_i hcaller
  split at h
  · exact StepResult.noConfusion h
  rename_i hstatus
  split at h
  case isFalse => exact StepResult.noConfusion h
  rename_i hle
  injection h with h1 h2
  exact ⟨not_not.mp hcaller, not_not.mp hstatus, hle, h1.symm, h2.symm⟩

/-! ### List accounting lemmas -/

/-- Amount a milestone may have contributed to `released_amount`: its full
amount once Approved or Resolved, nothing otherwise (a Resolved milestone
contributed at most its amount). -/
def contrib (m : Milestone) : Nat :=
  if m.status = .Approved ∨ m.status = .Resolved then m.amount else 0

/-- Upper bound on `released_amount` derivable from the milestone list. -/
def relBound (ms : List Milestone) : Nat := (ms.map contrib).sum

theorem contrib_le (m : Milestone) : contrib m ≤ m.amount := by
  unfold contrib; split <;> simp

theorem relBound_le_sumAmounts : ∀ ms : List Milestone, relBound ms ≤ sumAmounts ms
| [] => le_refl _
| m :: ms => by
  have h1 := contrib_le m
  have h2 := relBound_le_sumAmounts ms
  simp only [relBound, sumAmounts, List.map_cons, List.sum_cons] at *
  omega

theorem mapSum_set (f : Milestone → Nat) :
    ∀ (ms : List Milestone) (i : Nat) (m m' : Milestone),
      ms.get? i = some m →
      ((ms.set i m').map f).sum + f m = (ms.map f).sum + f m'
| [], i, m, m', h => by simp at h
| a :: ms, 0, m, m', h => by
  simp only [List.get?] at h
  injection h with h
  subst h
  simp only [List.set, List.map_cons, List.sum_cons]
  omega
| a :: ms, i + 1, m, m', h => by
  simp only [List.get?] at h
  have ih := mapSum_set f ms i m m' h
  simp only [List.set, List.map_cons, List.sum_cons]
  omega

theorem sumAmounts_set {ms : List Milestone} {i : Nat} {m m' : Milestone}
    (h : ms.get? i = some m) (ha : m'.amount = m.amount) :
    sumAmounts (ms.set i m') = sumAmounts ms := by
  have := mapSum_set (fun x => x.amount) ms i m m' h
  simp only [sumAmounts] at *
  omega

theorem relBound_set {ms : List Milestone} {i : Nat} {m m' : Milestone}
    (h : ms.get? i = some m) :
    relBound (ms.set i m') + contrib m = relBound ms + contrib m' :=
  mapSum_set contrib ms i m m' h

/-! ### The inductive invariant of reachable contract records -/

/-- Invariant: the stored total matches the milestone amounts, the released
amount is bounded by the amounts of the Approved/Resolved milestones, and a
Completed contract is fully released. -/
def Inv (c : Contract) : Prop :=
  c.total_amount = sumAmounts c.milestones ∧
  c.released_amount ≤ relBound c.milestones ∧
  (c.status = .Completed → c.released_amount = c.total_amount)

theorem inv_released_le_total {c : Contract} (h : Inv c) :
    c.released_amount ≤ c.total_amount := by
  obtain ⟨h1, h2, _⟩ := h
  have := relBound_le_sumAmounts c.milestones
  omega

theorem inv_create {cid cl fr mint total : Nat} {ms : List Milestone}
    {dh : Hash} {now : Int} {bump : Nat} {c : Contract} {txs : List Transfer}
    (h : create_contract cid cl fr mint total ms dh now bump = .ok c txs) :
    Inv c := by
  obtain ⟨_, _, hsum, _, _, hc⟩ := create_ok h
  subst hc
  exact ⟨hsum.symm, Nat.zero_le _, fun hcomp => by simp at hcomp⟩

theorem inv_fund {c : Contract} {caller : Pubkey} {amount : Nat}
    {c' : Contract} {txs : List Transfer}
    (hinv : Inv c) (h : fund_escrow c caller amount = .ok c' txs) : Inv c' := by
  obtain ⟨_, _, _, hc', _⟩ := fund_ok h
  subst hc'
  exact hinv

theorem inv_submit {c : Contract} {caller : Pubkey} {idx : Nat} {proof : Hash}
    {now : Int} {c' : Contract} {txs : List Transfer}
    (hinv : Inv c) (h : submit_milestone c caller idx proof now = .ok c' txs) :
    Inv c' := by
  obtain ⟨m, hm, hmp, _, hact, _, _, hc'⟩ := submit_ok h
  subst hc'
  obtain ⟨h1, h2, h3⟩ := hinv
  have hset := @relBound_set c.milestones idx m { m with status := .Submitted, proof_hash := some proof, submitted_at := some now } hm
  have hsum := @sumAmounts_set c.milestones idx m { m with status := .Submitted, proof_hash := some proof, submitted_at := some now } hm rfl
  have hcm : contrib m = 0 := by simp [contrib, hmp]
  have hcm2 : contrib { m with status := MilestoneStatus.Submitted, proof_hash := some proof, submitted_at := some now } = 0 := by
    simp [contrib]
  rw [hcm, hcm2] at hset
  refine ⟨?_, ?_, ?_⟩
  · exact h1.trans hsum.symm
  · show c.released_amount ≤ relBound (c.milestones.set idx _)
    omega
  · intro hcomp
    have hs : c.status = ContractStatus.Completed := hcomp
    rw [hact] at hs
    exact absurd hs (by decide)

theorem inv_approve {c : Contract} {caller : Pubkey} {idx : Nat}
    {c' : Contract} {txs : List Transfer}
    (hinv : Inv c) (h : approve_milestone c caller idx = .ok c' txs) : Inv c' := by
  obtain ⟨m, hm, hms, _, hact, _, _, _, hc'⟩ := approve_ok h
  subst hc'
  obtain ⟨h1, h2, h3⟩ := hinv
  have hset := @relBound_set c.milestones idx m { m with status := .Approved } hm
  have hsum := @sumAmounts_set c.milestones idx m { m with status := .Approved } hm rfl
  have hcm : contrib m = 0 := by simp [contrib, hms]
  have hcm2 : contrib { m with status := MilestoneStatus.Approved } = m.amount := by
    simp [contrib]
  rw [hcm, hcm2] at hset
  refine ⟨?_, ?_, ?_⟩
  · exact h1.trans hsum.symm
  · show c.released_amount + m.amount ≤ relBound (c.milestones.set idx _)
    omega
  · intro hcomp
    show c.released_amount + m.amount = c.total_amount
    have hs : (if c.released_amount + m.amount = c.total_amount then ContractStatus.Completed else c.status) = ContractStatus.Completed := hcomp
    by_cases hP : c.released_amount + m.amount = c.total_amount
    · exact hP
    · rw [if_neg hP, hact] at hs
      exact absurd hs (by decide)

theorem inv_raise {c : Contract} {caller : Pubkey} {idx : Nat} {reason : Hash}
    {c' : Contract} {txs : List Transfer}
    (hinv : Inv c) (h : raise_dispute c caller idx reason = .ok c' txs) : Inv c' := by
  obtain ⟨m, hm, hms, _, hact, _, hc'⟩ := raise_ok h
  subst hc'
  obtain ⟨h1, h2, h3⟩ := hinv
  have hset := @relBound_set c.milestones idx m { m with status := .Disputed, dispute_reason := some reason } hm
  have hsum := @sumAmounts_set c.milestones idx m { m with status := .Disputed, dispute_reason := some reason } hm rfl
  have hcm : contrib m = 0 := by simp [contrib, hms]
  have hcm2 : contrib { m with status := MilestoneStatus.Disputed, dispute_reason := some reason } = 0 := by
    simp [contrib]
  rw [hcm, hcm2] at hset
  refine ⟨?_, ?_, ?_⟩
  · exact h1.trans hsum.symm
  · show c.released_amount ≤ relBound (c.milestones.set idx _)
    omega
  · intro hcomp
    have hs : c.status = ContractStatus.Completed := hcomp
    rw [hact] at hs
    exact absurd hs (by decide)

theorem inv_resolve {c : Contract} {arb : Pubkey} {idx : Nat}
    {d : DisputeDecision} {pr : Hash} {c' : Contract} {txs : List Transfer}
    (hinv : Inv c) (h : resolve_dispute c arb idx d pr = .ok c' txs) : Inv c' := by
  obtain ⟨m, hm, hmd, hcase⟩ := resolve_ok h
  obtain ⟨h1, h2, h3⟩ := hinv
  have hcm : contrib m = 0 := by simp [contrib, hmd]
  have hrel := relBound_le_sumAmounts c.milestones
  rcases hcase with ⟨_, hov, _, hc'⟩ | ⟨_, _, hc'⟩ | ⟨pct, _, hle, hov, _, hc'⟩
  · subst hc'
    have hset := @relBound_set c.milestones idx m { m with arbitration_proof := some pr, status := .Approved } hm
    have hsum := @sumAmounts_set c.milestones idx m { m with arbitration_proof := some pr, status := .Approved } hm rfl
    have hcm2 : contrib { m with arbitration_proof := some pr, status := MilestoneStatus.Approved } = m.amount := by
      simp [contrib]
    rw [hcm, hcm2] at hset
    refine ⟨?_, ?_, ?_⟩
    · exact h1.trans hsum.symm
    · show c.released_amount + m.amount ≤ relBound (c.milestones.set idx _)
      omega
    · intro hcomp
      show c.released_amount + m.amount = c.total_amount
      have hs : (if c.released_amount + m.amount = c.total_amount then ContractStatus.Completed else c.status) = ContractStatus.Completed := hcomp
      by_cases hP : c.released_amount + m.amount = c.total_amount
      · exact hP
      · rw [if_neg hP] at hs
        have h3c := h3 hs
        have hrel2 := relBound_le_sumAmounts (c.milestones.set idx { m with arbitration_proof := some pr, status := .Approved })
        omega
  · subst hc'
    have hset := @relBound_set c.milestones idx m { m with arbitration_proof := some pr, status := .Rejected } hm
    have hsum := @sumAmounts_set c.milestones idx m { m with arbitration_proof := some pr, status := .Rejected } hm rfl
    have hcm2 : contrib { m with arbitration_proof := some pr, status := MilestoneStatus.Rejected } = 0 := by
      simp [contrib]
    rw [hcm, hcm2] at hset
    refine ⟨?_, ?_, ?_⟩
    · exact h1.trans hsum.symm
    · show c.released_amount ≤ relBound (c.milestones.set idx _)
      omega
    · intro hcomp
      show c.released_amount = c.total_amount
      have hs : (if c.released_amount = c.total_amount then ContractStatus.Completed else c.status) = ContractStatus.Completed := hcomp
      by_cases hP : c.released_amount = c.total_amount
      · exact hP
      · rw [if_neg hP] at hs
        exact h3 hs
  · subst hc'
    have hset := @relBound_set c.milestones idx m { m with arbitration_proof := some pr, status := .Resolved } hm
    have hsum := @sumAmounts_set c.milestones idx m { m with arbitration_proof := some pr, status := .Resolved } hm rfl
    have hcm2 : contrib { m with arbitration_proof := some pr, status := MilestoneStatus.Resolved } = m.amount := by
      simp [contrib]
    rw [hcm, hcm2] at hset
    refine ⟨?_, ?_, ?_⟩
    · exact h1.trans hsum.symm
    · show c.released_amount + (splitAmounts m.amount pct).1 ≤ relBound (c.milestones.set idx _)
      omega
    · intro hcomp
      show c.released_amount + (splitAmounts m.amount pct).1 = c.total_amount
      have hs : (if c.released_amount + (splitAmounts m.amount pct).1 = c.total_amount then ContractStatus.Completed else c.status) = ContractStatus.Completed := hcomp
      by_cases hP : c.released_amount + (splitAmounts m.amount pct).1 = c.total_amount
      · exact hP
      · rw [if_neg hP] at hs
        have h3c := h3 hs
        have hrel2 := relBound_le_sumAmounts (c.milestones.set idx { m with arbitration_proof := some pr, status := .Resolved })
        omega

theorem inv_cancel {c : Contract} {caller : Pubkey}
    {c' : Contract} {txs : List Transfer}
    (hinv : Inv c) (h : cancel_contract c caller = .ok c' txs) : Inv c' := by
  obtain ⟨_, _, _, hc', _⟩ := cancel_ok h
  subst hc'
  obtain ⟨h1, h2, h3⟩ := hinv
  refine ⟨h1, h2, fun hcomp => ?_⟩
  have hs : ContractStatus.Cancelled = ContractStatus.Completed := hcomp
  exact absurd hs (by decide)

theorem inv_step {c : Contract} {op : Op} {c' : Contract} {txs : List Transfer}
    (hinv : Inv c) (h : applyOp c op = .ok c' txs) : Inv c' := by
  cases op <;> simp only [applyOp] at h
  case fund => exact inv_fund hinv h
  case submit => exact inv_submit hinv h
  case approve => exact inv_approve hinv h
  case dispute => exact inv_raise hinv h
  case resolve => exact inv_resolve hinv h
  case cancel => exact inv_cancel hinv h

theorem inv_reachable {c : Contract} (h : Reachable c) : Inv c := by
  induction h with
  | created _ _ _ _ _ _ _ _ _ _ _ hc => exact inv_create hc
  | step _ _ _ _ _ hop ih => exact inv_step ih hop

/-- `released_amount` never decreases across a successful call. -/
theorem released_mono {c : Contract} {op : Op} {c' : Contract}
    {txs : List Transfer} (h : applyOp c op = .ok c' txs) :
    c.released_amount ≤ c'.released_amount := by
  cases op <;> simp only [applyOp] at h
  case fund =>
    obtain ⟨_, _, _, hc', _⟩ := fund_ok h
    subst hc'
    exact le_refl _
  case submit =>
    obtain ⟨m, _, _, _, _, _, _, hc'⟩ := submit_ok h
    subst hc'
    exact le_refl _
  case approve =>
    obtain ⟨m, _, _, _, _, _, _, _, hc'⟩ := approve_ok h
    subst hc'
    show c.released_amount ≤ c.released_amount + m.amount
    omega
  case dispute =>
    obtain ⟨m, _, _, _, _, _, hc'⟩ := raise_ok h
    subst hc'
    exact le_refl _
  case resolve =>
    obtain ⟨m, _, _, hcase⟩ := resolve_ok h
    rcases hcase with ⟨_, _, _, hc'⟩ | ⟨_, _, hc'⟩ | ⟨pct, _, _, _, _, hc'⟩ <;> subst hc'
    · show c.released_amount ≤ c.released_amount + m.amount
      omega
    · exact le_refl _
    · show c.released_amount ≤ c.released_amount + (splitAmounts m.amount pct).1
      omega
  case cancel =>
    obtain ⟨_, _, _, hc', _⟩ := cancel_ok h
    subst hc'
    exact le_refl _

/-! ### Milestone status forward motion -/

/-- The milestone transition graph (spec section 4.5) together with staying
put: Pending → Submitted → Approved or Disputed;
Disputed → Approved, Rejected or Resolved. -/
def forwardEdge : MilestoneStatus → MilestoneStatus → Bool
| .Pending, .Submitted => true
| .Submitted, .Approved => true
| .Submitted, .Disputed => true
| .Disputed, .Approved => true
| .Disputed, .Rejected => true
| .Disputed, .Resolved => true
| a, b => decide (a = b)

theorem forwardEdge_refl (a : MilestoneStatus) : forwardEdge a a = true := by
  cases a <;> rfl

theorem milestones_forward {c : Contract} {op : Op} {c' : Contract}
    {txs : List Transfer} (h : applyOp c op = .ok c' txs) :
    ∀ i m m', c.milestones.get? i = some m → c'.milestones.get? i = some m' →
      forwardEdge m.status m'.status = true := by
  cases op <;> simp only [applyOp] at h
  case fund caller amount =>
    obtain ⟨_, _, _, hc', _⟩ := fund_ok h
    subst hc'
    intro i m m' hm hm'
    rw [hm] at hm'
    injection hm' with e
    subst e
    exact forwardEdge_refl _
  case submit caller idx proof now =>
    obtain ⟨m0, hm0, hm0p, _, _, hlen, _, hc'⟩ := submit_ok h
    subst hc'
    intro i m m' hm hm'
    show forwardEdge m.status m'.status = true
    by_cases hi : idx = i
    · subst hi
      rw [List.get?_set_eq_of_lt _ hlen] at hm'
      rw [hm0] at hm
      injection hm with e1
      injection hm' with e2
      subst e1
      subst e2
      rw [hm0p]
      rfl
    · rw [List.get?_set_ne _ _ hi] at hm'
      rw [hm] at hm'
      injection hm' with e
      subst e
      exact forwardEdge_refl _
  case approve caller idx =>
    obtain ⟨m0, hm0, hm0s, _, _, hlen, _, _, hc'⟩ := approve_ok h
    subst hc'
    intro i m m' hm hm'
    show forwardEdge m.status m'.status = true
    by_cases hi : idx = i
    · subst hi
      rw [List.get?_set_eq_of_lt _ hlen] at hm'
      rw [hm0] at hm
      injection hm with e1
      injection hm' with e2
      subst e1
      subst e2
      rw [hm0s]
      rfl
    · rw [List.get?_set_ne _ _ hi] at hm'
      rw [hm] at hm'
      injection hm' with e
      subst e
      exact forwardEdge_refl _
  case dispute caller idx reason =>
    obtain ⟨m0, hm0, hm0s, _, _, _, hc'⟩ := raise_ok h
    subst hc'
    obtain ⟨hlen, _⟩ := List.get?_eq_some.mp hm0
    intro i m m' hm hm'
    show forwardEdge m.status m'.status = true
    by_cases hi : idx = i
    · subst hi
      rw [List.get?_set_eq_of_lt _ hlen] at hm'
      rw [hm0] at hm
      injection hm with e1
      injection hm' with e2
      subst e1
      subst e2
      rw [hm0s]
      rfl
    · rw [List.get?_set_ne _ _ hi] at hm'
      rw [hm] at hm'
      injection hm' with e
      subst e
      exact forwardEdge_refl _
  case resolve arb idx d pr =>
    obtain ⟨m0, hm0, hm0s, hcase⟩ := resolve_ok h
    obtain ⟨hlen, _⟩ := List.get?_eq_some.mp hm0
    rcases hcase with ⟨_, _, _, hc'⟩ | ⟨_, _, hc'⟩ | ⟨pct, _, _, _, _, hc'⟩ <;>
      subst hc' <;>
      intro i m m' hm hm' <;>
      show forwardEdge m.status m'.status = true <;>
      by_cases hi : idx = i
    · subst hi
      rw [List.get?_set_eq_of_lt _ hlen] at hm'
      rw [hm0] at hm
      injection hm with e1
      injection hm' with e2
      subst e1
      subst e2
      rw [hm0s]
      rfl
    · rw [List.get?_set_ne _ _ hi] at hm'
      rw [hm] at hm'
      injection hm' with e
      subst e
      exact forwardEdge_refl _
    · subst hi
      rw [List.get?_set_eq_of_lt _ hlen] at hm'
      rw [hm0] at hm
      injection hm with e1
      injection hm' with e2
      subst e1
      subst e2
      rw [hm0s]
      rfl
    · rw [List.get?_set_ne _ _ hi] at hm'
      rw [hm] at hm'
      injection hm' with e
      subst e
      exact forwardEdge_refl _
    · subst hi
      rw [List.get?_set_eq_of_lt _ hlen] at hm'
      rw [hm0] at hm
      injection hm with e1
      injection hm' with e2
      subst e1
      subst e2
      rw [hm0s]
      rfl
    · rw [List.get?_set_ne _ _ hi] at hm'
      rw [hm] at hm'
      injection hm' with e
      subst e
      exact forwardEdge_refl _
  case cancel caller =>
    obtain ⟨_, _, _, hc', _⟩ := cancel_ok h
    subst hc'
    intro i m m' hm hm'
    show forwardEdge m.status m'.status = true
    rw [hm] at hm'
    injection hm' with e
    subst e
    exact forwardEdge_refl _

/-! ### Concrete records used to exercise the claims -/

/-- The record `create_contract` builds for one 100-amount milestone between
client 10 and freelancer 20 (token mint 30, hashes and timestamps zero). -/
def demoContract : Contract :=
  { id := 1, client := 10, freelancer := 20, token_mint := 30,
    total_amount := 100, released_amount := 0, milestones := [mkMilestone 100],
    description_hash := 0, status := .Active, created_at := 0, bump := 0 }

/-- `demoContract` after fund, submit (proof 5) and raise_dispute (reason 6):
its single milestone is Disputed. -/
def demoDisputed : Contract :=
  { id := 1, client := 10, freelancer := 20, token_mint := 30,
    total_amount := 100, released_amount := 0,
    milestones := [{ amount := 100, status := .Disputed, description := "",
                     proof_hash := some 5, dispute_reason := some 6,
                     arbitration_proof := none, submitted_at := some 0 }],
    description_hash := 0, status := .Active, created_at := 0, bump := 0 }

/-- `demoDisputed` after `cancel_contract` (the client was refunded 100). -/
def demoCancelled : Contract :=
  { id := 1, client := 10, freelancer := 20, token_mint := 30,
    total_amount := 100, released_amount := 0,
    milestones := [{ amount := 100, status := .Disputed, description := "",
                     proof_hash := some 5, dispute_reason := some 6,
                     arbitration_proof := none, submitted_at := some 0 }],
    description_hash := 0, status := .Cancelled, created_at := 0, bump := 0 }

/-- `demoCancelled` after `resolve_dispute _ _ 0 FavorFreelancer 7` — the
already-cancelled and refunded contract resolved in the freelancer's favor. -/
def demoLateResolved : Contract :=
  { id := 1, client := 10, freelancer := 20, token_mint := 30,
    total_amount := 100, released_amount := 100,
    milestones := [{ amount := 100, status := .Approved, description := "",
                     proof_hash := some 5, dispute_reason := some 6,
                     arbitration_proof := some 7, submitted_at := some 0 }],
    description_hash := 0, status := .Completed, created_at := 0, bump := 0 }

/-- A contract created with a milestone the caller already marked Submitted. -/
def demoPreSubmitted : Contract :=
  { id := 1, client := 10, freelancer := 20, token_mint := 30,
    total_amount := 100, released_amount := 0,
    milestones := [{ amount := 100, status := .Submitted, description := "",
                     proof_hash := none, dispute_reason := none,
                     arbitration_proof := none, submitted_at := none }],
    description_hash := 0, status := .Active, created_at := 0, bump := 0 }

/-- C1: the spec demands strict conservation: across any operation sequence
the escrow-outbound transfer requests never exceed `total_amount`, and after
a `Split` refunded the client share a later `cancel_contract` must not refund
it again.  The code violates this: on a 100-total contract, fund; submit;
dispute; `resolve_dispute (Split 50)` (transfers 50 to the freelancer and 50
back to the client, `released_amount := 50`); then `cancel_contract` refunds
`total_amount - released_amount = 50` once more — escrow-outbound transfers
total 150 against a 100 escrow. -/
theorem c1_cancel_after_split_over_refunds :
    create_contract 1 10 20 30 100 [mkMilestone 100] 0 0 0 = .ok demoContract [] ∧
    (runOps demoContract
      [.fund 10 100, .submit 20 0 5 0, .dispute 10 0 6,
       .resolve 99 0 (.Split 50) 7, .cancel 10]).map
      (fun p => escrowOutbound p.2) = some 150 ∧
    demoContract.total_amount = 100 :=
  ⟨by decide, by decide, by decide⟩

/-- C2: the claim says `create_contract` gives every milestone status Pending
regardless of the caller-supplied status values.  The code stores the
caller's milestone list verbatim: a milestone supplied as Submitted is kept
Submitted (while `status = Active` and `released_amount = 0` do hold). -/
theorem c2_create_keeps_caller_status :
    create_contract 1 10 20 30 100
      [{ mkMilestone 100 with status := .Submitted }] 0 0 0
      = .ok demoPreSubmitted [] ∧
    demoPreSubmitted.status = .Active ∧
    demoPreSubmitted.released_amount = 0 ∧
    demoPreSubmitted.milestones.map (fun m => m.status) = [.Submitted] :=
  ⟨by decide, by decide, by decide, by decide⟩

/-- C3 counterexample: a reachable Cancelled contract (create; fund; submit;
dispute; cancel) is still mutated by `resolve_dispute`, which checks only the
milestone status, not the contract status: the call succeeds, releases the
full amount again and even overwrites Cancelled with Completed. -/
theorem c3_resolve_mutates_cancelled_contract :
    (runOps demoContract
      [.fund 10 100, .submit 20 0 5 0, .dispute 10 0 6, .cancel 10]).map
      (fun p => p.1) = some demoCancelled ∧
    demoCancelled.status = .Cancelled ∧
    resolve_dispute demoCancelled 99 0 .FavorFreelancer 7
      = .ok demoLateResolved
          [{ source := .escrowVault, dest := .freelancerToken, amount := 100 }] ∧
    demoLateResolved ≠ demoCancelled ∧
    demoLateResolved.status = .Completed ∧
    demoLateResolved.released_amount = 100 :=
  ⟨by decide, by decide, by decide, by decide, by decide, by decide⟩

/-- C3 amended: status Active is a precondition of `fund_escrow`,
`submit_milestone`, `approve_milestone`, `raise_dispute` and
`cancel_contract` — each rejects any call on a non-Active contract with an
error (Unauthorized from the account constraints or ContractNotActive), so a
Completed or Cancelled record is never changed by these five; but
`resolve_dispute` performs no contract-status check and can still mutate a
terminal contract (see the counterexample). -/
theorem c3_amended_active_precondition (c : Contract)
    (h : c.status ≠ .Active) :
    (∀ caller amount, ∃ e, fund_escrow c caller amount = .err e) ∧
    (∀ caller idx proof now, ∃ e, submit_milestone c caller idx proof now = .err e) ∧
    (∀ caller idx, ∃ e, approve_milestone c caller idx = .err e) ∧
    (∀ caller idx reason, ∃ e, raise_dispute c caller idx reason = .err e) ∧
    (∀ caller, ∃ e, cancel_contract c caller = .err e) := by
  refine ⟨?_, ?_, ?_, ?_, ?_⟩
  · intro caller amount
    unfold fund_escrow
    repeat' split
    all_goals exact ⟨_, rfl⟩
  · intro caller idx proof now
    unfold submit_milestone
    repeat' split
    all_goals exact ⟨_, rfl⟩
  · intro caller idx
    unfold approve_milestone
    repeat' split
    all_goals exact ⟨_, rfl⟩
  · intro caller idx reason
    unfold raise_dispute
    repeat' split
    all_goals exact ⟨_, rfl⟩
  · intro caller
    unfold cancel_contract
    repeat' split
    all_goals exact ⟨_, rfl⟩

/-- C3 amended, witness at a concrete Completed contract. -/
theorem c3_amended_witness :
    ∃ e, fund_escrow demoLateResolved 10 100 = .err e :=
  (c3_amended_active_precondition demoLateResolved (by decide)).1 10 100

/-- C4 counterexample: the claim says every operation taking a milestone
index rejects an out-of-range index with `InvalidMilestoneIndex`.
`raise_dispute` (and `resolve_dispute`) index the milestone list with no
bounds check: index 5 on a 1-milestone contract panics (aborting the
transaction) instead of returning the validation error. -/
theorem c4_raise_oob_panics :
    raise_dispute demoContract 10 5 0 = .panic ∧
    raise_dispute demoContract 10 5 0 ≠ .err .InvalidMilestoneIndex ∧
    resolve_dispute demoContract 99 5 .FavorClient 0 = .panic :=
  ⟨by decide, by decide, by decide⟩

/-- C4 amended: on an out-of-range index, `submit_milestone` and
`approve_milestone` return `InvalidMilestoneIndex` (their bodies bounds-check
the index), while `raise_dispute` and `resolve_dispute` panic on the
unchecked access — the transaction aborts, so no state changes either way,
but no `InvalidMilestoneIndex` error is produced by the latter two. -/
theorem c4_amended_index_handling (c : Contract) (idx : Nat)
    (hactive : c.status = .Active) (hidx : c.milestones.length ≤ idx) :
    (∀ proof now, submit_milestone c c.freelancer idx proof now
      = .err .InvalidMilestoneIndex) ∧
    approve_milestone c c.client idx = .err .InvalidMilestoneIndex ∧
    (∀ reason, raise_dispute c c.client idx reason = .panic) ∧
    (∀ arb d pr, resolve_dispute c arb idx d pr = .panic) := by
  have hnone : c.milestones.get? idx = none := List.get?_eq_none.mpr hidx
  refine ⟨?_, ?_, ?_, ?_⟩
  · intro proof now
    unfold submit_milestone
    rw [if_neg (fun hh => hh rfl), if_neg (by simp [hactive]), if_pos hidx]
  · unfold approve_milestone
    rw [if_neg (fun hh => hh rfl), if_neg (by simp [hactive]), if_pos hidx]
  · intro reason
    unfold raise_dispute
    rw [if_neg (by simp), if_neg (by simp [hactive]), hnone]
  · intro arb d pr
    unfold resolve_dispute
    rw [hnone]

/-- C4 amended, witness at index 5 of the one-milestone `demoContract`. -/
theorem c4_amended_witness :
    submit_milestone demoContract 20 5 123 456 = .err .InvalidMilestoneIndex ∧
    approve_milestone demoContract 10 5 = .err .InvalidMilestoneIndex ∧
    raise_dispute demoContract 10 5 9 = .panic ∧
    resolve_dispute demoContract 99 5 .FavorClient 9 = .panic := by
  obtain ⟨h1, h2, h3, h4⟩ :=
    c4_amended_index_handling demoContract 5 (by decide) (by decide)
  exact ⟨h1 123 456, h2, h3 9, h4 99 .FavorClient 9⟩

/-- C5: the claim (and the spec's stated intent) is that `Split pct` with
`pct` outside [0,100] is rejected with a validation error and the state is
unchanged.  The code performs no range check: on the reachable Disputed
100-amount milestone, `Split 101` computes `freelancer_amount = 101` and the
checked subtraction `client_amount = 100 - 101` panics — the call aborts
rather than returning any validation error. -/
theorem c5_split_out_of_range_not_rejected :
    (runOps demoContract [.fund 10 100, .submit 20 0 5 0, .dispute 10 0 6]).map
      (fun p => p.1) = some demoDisputed ∧
    resolve_dispute demoDisputed 99 0 (.Split 101) 7 = .panic ∧
    (∀ e, resolve_dispute demoDisputed 99 0 (.Split 101) 7 ≠ .err e) := by
  refine ⟨by decide, by decide, fun e hh => ?_⟩
  rw [show resolve_dispute demoDisputed 99 0 (.Split 101) 7 = .panic by decide] at hh
  exact StepResult.noConfusion hh

/-- C6: the Split arithmetic of `resolve_dispute` (lines 178-179) is exact:
for any u64 `amount` and `pct` in [0,100], the u128 product does not
overflow, the `as u64` cast is lossless, `freelancer_amount` is
`floor(amount * pct / 100)`, and the two shares sum back to `amount`. -/
theorem c6_split_exact (amount pct : Nat)
    (h64 : amount < U64MOD) (hpct : pct ≤ 100) :
    (splitAmounts amount pct).1 = amount * pct / 100 ∧
    (splitAmounts amount pct).1 ≤ amount ∧
    (splitAmounts amount pct).1 + (splitAmounts amount pct).2 = amount ∧
    amount * pct < U128MOD := by
  have hfa : amount * pct / 100 ≤ amount := by
    calc amount * pct / 100 ≤ amount * 100 / 100 :=
          Nat.div_le_div_right (Nat.mul_le_mul_left _ hpct)
    _ = amount := Nat.mul_div_cancel _ (by norm_num)
  have hmod : amount * pct / 100 % U64MOD = amount * pct / 100 :=
    Nat.mod_eq_of_lt (lt_of_le_of_lt hfa h64)
  refine ⟨hmod, ?_, ?_, ?_⟩
  · show amount * pct / 100 % U64MOD ≤ amount
    rw [hmod]
    exact hfa
  · show amount * pct / 100 % U64MOD + (amount - amount * pct / 100 % U64MOD)
        = amount
    rw [hmod]
    omega
  · calc amount * pct ≤ amount * 100 := Nat.mul_le_mul_left _ hpct
    _ < U64MOD * 100 := (Nat.mul_lt_mul_right (by norm_num)).mpr h64
    _ < U128MOD := by decide

/-- C6 witness: amount 100, pct 70 — shares (70, 30). -/
theorem c6_witness :
    (100 : Nat) < U64MOD ∧ (70 : Nat) ≤ 100 ∧
    (splitAmounts 100 70).1 = 100 * 70 / 100 ∧
    (splitAmounts 100 70).1 ≤ 100 ∧
    (splitAmounts 100 70).1 + (splitAmounts 100 70).2 = 100 ∧
    100 * 70 < U128MOD := by
  have h := c6_split_exact 100 70 (by decide) (by decide)
  exact ⟨by decide, by decide, h.1, h.2.1, h.2.2.1, h.2.2.2⟩

/-- C7: in every state reachable from `create_contract` by any sequence of
operations, `released_amount ≤ total_amount` and `total_amount` equals the
sum of the milestone amounts, and `released_amount` is monotonically
non-decreasing across every successful operation (an erroring or panicking
call leaves the record unchanged by construction). -/
theorem c7_conservation (c : Contract) (h : Reachable c) :
    c.released_amount ≤ c.total_amount ∧
    c.total_amount = sumAmounts c.milestones ∧
    (∀ op c' txs, applyOp c op = .ok c' txs →
      c.released_amount ≤ c'.released_amount) := by
  have hinv := inv_reachable h
  exact ⟨inv_released_le_total hinv, hinv.1,
         fun op c' txs hop => released_mono hop⟩

/-- C7 witness at the freshly created `demoContract`. -/
theorem c7_witness :
    demoContract.released_amount ≤ demoContract.total_amount ∧
    demoContract.total_amount = sumAmounts demoContract.milestones ∧
    (∀ op c' txs, applyOp demoContract op = .ok c' txs →
      demoContract.released_amount ≤ c'.released_amount) :=
  c7_conservation demoContract
    (Reachable.created 1 10 20 30 100 [mkMilestone 100] 0 0 0 demoContract []
      (by decide))

/-- C8: after every successful release-causing call (`approve_milestone`, and
`resolve_dispute` in any branch), the resulting status is Completed exactly
when the resulting `released_amount` equals `total_amount`; it is never set
to Completed while `released_amount < total_amount`. -/
theorem c8_completion_trigger (c : Contract) (h : Reachable c) :
    (∀ caller idx c' txs, approve_milestone c caller idx = .ok c' txs →
      (c'.status = .Completed ↔ c'.released_amount = c'.total_amount)) ∧
    (∀ arb idx d pr c' txs, resolve_dispute c arb idx d pr = .ok c' txs →
      (c'.status = .Completed ↔ c'.released_amount = c'.total_amount)) := by
  have hinv := inv_reachable h
  constructor
  · intro caller idx c' txs hop
    constructor
    · exact (inv_approve hinv hop).2.2
    · intro he
      obtain ⟨m, hm, _, _, hact, _, _, _, hc'⟩ := approve_ok hop
      subst hc'
      have he2 : c.released_amount + m.amount = c.total_amount := he
      show (if c.released_amount + m.amount = c.total_amount
            then ContractStatus.Completed else c.status) = ContractStatus.Completed
      rw [if_pos he2]
  · intro arb idx d pr c' txs hop
    constructor
    · exact (inv_resolve hinv hop).2.2
    · intro he
      obtain ⟨m, hm, _, hcase⟩ := resolve_ok hop
      rcases hcase with ⟨_, _, _, hc'⟩ | ⟨_, _, hc'⟩ | ⟨pct, _, _, _, _, hc'⟩
      · subst hc'
        have he2 : c.released_amount + m.amount = c.total_amount := he
        show (if c.released_amount + m.amount = c.total_amount
              then ContractStatus.Completed else c.status) = ContractStatus.Completed
        rw [if_pos he2]
      · subst hc'
        have he2 : c.released_amount = c.total_amount := he
        show (if c.released_amount = c.total_amount
              then ContractStatus.Completed else c.status) = ContractStatus.Completed
        rw [if_pos he2]
      · subst hc'
        have he2 : c.released_amount + (splitAmounts m.amount pct).1
            = c.total_amount := he
        show (if c.released_amount + (splitAmounts m.amount pct).1 = c.total_amount
              then ContractStatus.Completed else c.status) = ContractStatus.Completed
        rw [if_pos he2]

/-- C8 witness at the freshly created `demoContract`. -/
theorem c8_witness :
    (∀ caller idx c' txs, approve_milestone demoContract caller idx = .ok c' txs →
      (c'.status = .Completed ↔ c'.released_amount = c'.total_amount)) ∧
    (∀ arb idx d pr c' txs, resolve_dispute demoContract arb idx d pr = .ok c' txs →
      (c'.status = .Completed ↔ c'.released_amount = c'.total_amount)) :=
  c8_completion_trigger demoContract
    (Reachable.created 1 10 20 30 100 [mkMilestone 100] 0 0 0 demoContract []
      (by decide))

/-- On any contract, `approve_milestone` by the client fails with a state
error when the addressed milestone is not Submitted: `ContractNotActive`
when the contract is no longer Active, `MilestoneNotSubmitted` otherwise. -/
theorem approve_fails_when_not_submitted {c2 : Contract} {idx : Nat}
    {M : Milestone} (hget : c2.milestones.get? idx = some M)
    (hM : ¬ M.status = .Submitted) :
    ∃ e, approve_milestone c2 c2.client idx = .err e ∧
      (e = .ContractNotActive ∨ e = .MilestoneNotSubmitted) := by
  obtain ⟨hlen, _⟩ := List.get?_eq_some.mp hget
  unfold approve_milestone
  rw [if_neg (fun hh => hh rfl)]
  by_cases hst : c2.status ≠ .Active
  · rw [if_pos hst]
    exact ⟨_, rfl, Or.inl rfl⟩
  · rw [if_neg hst, if_neg (not_le.mpr hlen), hget]
    exact ⟨_, if_pos hM, Or.inr rfl⟩

/-- On any contract, `resolve_dispute` fails with `MilestoneNotDisputed`
when the addressed milestone is not Disputed (there is no contract-status or
authorization check before this). -/
theorem resolve_fails_when_not_disputed {c2 : Contract} {arb : Pubkey}
    {idx : Nat} {d : DisputeDecision} {pr : Hash} {M : Milestone}
    (hget : c2.milestones.get? idx = some M) (hM : ¬ M.status = .Disputed) :
    resolve_dispute c2 arb idx d pr = .err .MilestoneNotDisputed := by
  unfold resolve_dispute
  rw [hget]
  exact if_pos hM

/-- C9: a second `approve_milestone` on the same index fails with a state
error (`ContractNotActive` when the first approval completed the contract,
`MilestoneNotSubmitted` otherwise), a second `resolve_dispute` on the same
index fails with `MilestoneNotDisputed` (an erroring call returns no new
record, so `released_amount` is unchanged), and across every successful
operation each milestone's status moves only along the forward graph
Pending → Submitted → (Approved | Disputed),
Disputed → (Approved | Rejected | Resolved). -/
theorem c9_no_double_release (c : Contract) :
    (∀ caller idx c1 t1, approve_milestone c caller idx = .ok c1 t1 →
      ∃ e, approve_milestone c1 caller idx = .err e ∧
        (e = .ContractNotActive ∨ e = .MilestoneNotSubmitted)) ∧
    (∀ arb idx d pr c1 t1 arb2 d2 pr2,
      resolve_dispute c arb idx d pr = .ok c1 t1 →
      resolve_dispute c1 arb2 idx d2 pr2 = .err .MilestoneNotDisputed) ∧
    (∀ op c' txs, applyOp c op = .ok c' txs →
      ∀ i m m', c.milestones.get? i = some m →
        c'.milestones.get? i = some m' →
        forwardEdge m.status m'.status = true) := by
  refine ⟨?_, ?_, ?_⟩
  · intro caller idx c1 t1 h1
    obtain ⟨m, hm, hms, hcall, hact, hlen, hov, htxs, hc1⟩ := approve_ok h1
    subst hc1
    subst hcall
    exact approve_fails_when_not_submitted
      (List.get?_set_eq_of_lt _ hlen)
      (fun hh => MilestoneStatus.noConfusion hh)
  · intro arb idx d pr c1 t1 arb2 d2 pr2 h1
    obtain ⟨m, hm, hmd, hcase⟩ := resolve_ok h1
    obtain ⟨hlen, _⟩ := List.get?_eq_some.mp hm
    rcases hcase with ⟨_, _, _, hc1⟩ | ⟨_, _, hc1⟩ | ⟨pct, _, _, _, _, hc1⟩ <;>
      subst hc1
    · exact resolve_fails_when_not_disputed
        (List.get?_set_eq_of_lt _ hlen)
        (fun hh => MilestoneStatus.noConfusion hh)
    · exact resolve_fails_when_not_disputed
        (List.get?_set_eq_of_lt _ hlen)
        (fun hh => MilestoneStatus.noConfusion hh)
    · exact resolve_fails_when_not_disputed
        (List.get?_set_eq_of_lt _ hlen)
        (fun hh => MilestoneStatus.noConfusion hh)
  · exact fun op c' txs hop => milestones_forward hop

/-- A contract whose single 100-amount milestone has been submitted. -/
def demoSubmitted : Contract :=
  { id := 1, client := 10, freelancer := 20, token_mint := 30,
    total_amount := 100, released_amount := 0,
    milestones := [{ amount := 100, status := .Submitted, description := "",
                     proof_hash := some 5, dispute_reason := none,
                     arbitration_proof := none, submitted_at := some 0 }],
    description_hash := 0, status := .Active, created_at := 0, bump := 0 }

/-- `demoSubmitted` after the client approves milestone 0: fully released
and Completed. -/
def demoApproved : Contract :=
  { id := 1, client := 10, freelancer := 20, token_mint := 30,
    total_amount := 100, released_amount := 100,
    milestones := [{ amount := 100, status := .Approved, description := "",
                     proof_hash := some 5, dispute_reason := none,
                     arbitration_proof := none, submitted_at := some 0 }],
    description_hash := 0, status := .Completed, created_at := 0, bump := 0 }

/-- C9 witness: approving milestone 0 of `demoSubmitted` succeeds; the
second approval fails with a state error. -/
theorem c9_witness :
    ∃ e, approve_milestone demoApproved 10 0 = .err e ∧
      (e = PayGuardError.ContractNotActive ∨
       e = PayGuardError.MilestoneNotSubmitted) :=
  (c9_no_double_release demoSubmitted).1 10 0 demoApproved
    [{ source := .escrowVault, dest := .freelancerToken, amount := 100 }]
    (by decide)

/-- C10: with distinct parties, `submit_milestone` signed by the client,
`approve_milestone` signed by the freelancer, and `cancel_contract` signed
by the freelancer are all rejected by the account constraints with an
authorization error, before any state is touched. -/
theorem c10_wrong_role_rejected (c : Contract) (h : c.client ≠ c.freelancer) :
    (∀ idx proof now,
      submit_milestone c c.client idx proof now = .err .Unauthorized) ∧
    (∀ idx, approve_milestone c c.freelancer idx = .err .Unauthorized) ∧
    cancel_contract c c.freelancer = .err .Unauthorized := by
  refine ⟨?_, ?_, ?_⟩
  · intro idx proof now
    unfold submit_milestone
    rw [if_pos h]
  · intro idx
    unfold approve_milestone
    rw [if_pos (fun hh => h hh.symm)]
  · unfold cancel_contract
    rw [if_pos (fun hh => h hh.symm)]

/-- C10 witness on `demoContract` (client 10, freelancer 20). -/
theorem c10_witness :
    demoContract.client ≠ demoContract.freelancer ∧
    submit_milestone demoContract demoContract.client 0 1 2
      = .err .Unauthorized ∧
    approve_milestone demoContract demoContract.freelancer 0
      = .err .Unauthorized ∧
    cancel_contract demoContract demoContract.freelancer
      = .err .Unauthorized := by
  obtain ⟨h1, h2, h3⟩ := c10_wrong_role_rejected demoContract (by decide)
  exact ⟨by decide, h1 0 1 2, h2 0, h3⟩

end PayGuard
